import Mathlib

/-!
Verification of the core pipeline of the lecture-assistant repository against its
specification.

The development shallowly embeds the two Python source files:

* `lecture_ingest_function/main.py` — the ingestion pipeline.  Document text is
  modelled as `List Char` (Python `str` is a sequence of code points);
  `str.split("\n")` becomes `List.splitOn '\n'`, `str.strip()` becomes `trim`
  below, string length is list length.  External collaborators (PDF text
  extraction, the embedding model, the vector-index upsert call) are passed in
  as explicit outcome functions returning `Except`, mirroring which calls the
  Python code wraps in `try`.
* `lecture-rag-backend/app/main.py` — the query pipeline.  Here strings are
  `String` (all claims about it are concrete string computations); collaborator
  calls (embedding + nearest-neighbour search, the Gemini generation call) are
  again explicit `Except` outcomes.
-/

/-! ## Chunker (`lecture_ingest_function/main.py`, `split_text_into_chunks`) -/

/-- Python `s.strip()` on a code-point list: drop whitespace from both ends. -/
def trim (l : List Char) : List Char :=
  ((l.dropWhile Char.isWhitespace).reverse.dropWhile Char.isWhitespace).reverse

/-- One iteration of the `for p in paragraphs` loop body of
`split_text_into_chunks` (main.py lines 13–18): state is `(chunks, current)`.
If `len(current) + len(p) > max_chars`, flush `current.strip()` and restart the
buffer at `p`; otherwise `current += "\n" + p`. -/
def chunkStep (max_chars : Nat) (st : List (List Char) × List Char) (p : List Char) :
    List (List Char) × List Char :=
  if st.2.length + p.length > max_chars then
    (st.1 ++ [trim st.2], p)
  else
    (st.1, st.2 ++ '\n' :: p)

/-- `split_text_into_chunks(text, max_chars=1500)` (main.py lines 9–21):
split on `"\n"`, greedily accumulate paragraphs, flush the trailing buffer if
non-empty (`if current:`), and keep only chunks that are non-empty after
stripping (`[c for c in chunks if c.strip()]`). -/
def split_text_into_chunks (text : List Char) (max_chars : Nat) : List (List Char) :=
  let paragraphs := text.splitOn '\n'
  let st := paragraphs.foldl (chunkStep max_chars) ([], [])
  let chunks := if st.2.isEmpty then st.1 else st.1 ++ [trim st.2]
  chunks.filter (fun c => !(trim c).isEmpty)

/-- Claim C1 counterexample: on `"aaaaa\nbbbbb\nccccc"` with `max_chars = 10`
the chunker does **not** return three chunks `["aaaaa", "bbbbb", "ccccc"]`:
after flushing `"aaaaa"` the buffer holds `"bbbbb"` (length 5), and the guard
`5 + 5 > 10` is false because the `"\n"` separator is not counted, so
`"ccccc"` is appended to the same buffer. -/
theorem split_text_into_chunks_boundary_counterexample :
    split_text_into_chunks ("aaaaa\nbbbbb\nccccc".data) 10 ≠
      ["aaaaa".data, "bbbbb".data, "ccccc".data] := by
  decide

/-- Claim C1 (amended): on `"aaaaa\nbbbbb\nccccc"` with `max_chars = 10` the
chunker returns exactly the two chunks `["aaaaa", "bbbbb\nccccc"]` — the
length check ignores the separator, so the second and third paragraphs
(5 + 5 = 10 ≤ 10) are combined into one chunk. -/
theorem split_text_into_chunks_boundary :
    split_text_into_chunks ("aaaaa\nbbbbb\nccccc".data) 10 =
      ["aaaaa".data, ("bbbbb\nccccc").data] := by
  decide

/-! ### Chunker lemmas: non-whitespace content is preserved -/

/-- The non-whitespace code points of a text, in order. -/
def nonWS (l : List Char) : List Char := l.filter (fun c => !c.isWhitespace)

theorem nonWS_append (l₁ l₂ : List Char) : nonWS (l₁ ++ l₂) = nonWS l₁ ++ nonWS l₂ :=
  List.filter_append ..

theorem nonWS_dropWhile (l : List Char) :
    nonWS (l.dropWhile Char.isWhitespace) = nonWS l := by
  induction l with
  | nil => rfl
  | cons c t ih =>
    by_cases h : c.isWhitespace
    · simp [nonWS, List.dropWhile_cons, List.filter_cons, h] at ih ⊢
      exact ih
    · simp [nonWS, List.dropWhile_cons, List.filter_cons, h]

theorem nonWS_reverse (l : List Char) : nonWS l.reverse = (nonWS l).reverse := by
  induction l with
  | nil => rfl
  | cons c t ih =>
    by_cases h : c.isWhitespace <;>
      simp [nonWS, List.reverse_cons, List.filter_append, List.filter_cons, h, ih]


theorem nonWS_trim (l : List Char) : nonWS (trim l) = nonWS l := by
  unfold trim
  rw [nonWS_reverse, nonWS_dropWhile, nonWS_reverse, List.reverse_reverse, nonWS_dropWhile]

theorem nonWS_eq_nil_of_trim_eq_nil {l : List Char} (h : trim l = []) : nonWS l = [] := by
  rw [← nonWS_trim, h]; rfl

theorem nonWS_newline_cons (p : List Char) : nonWS ('\n' :: p) = nonWS p := by
  simp [nonWS, List.filter_cons]

theorem nonWS_flatten (L : List (List Char)) :
    nonWS L.flatten = (L.map nonWS).flatten := by
  induction L with
  | nil => rfl
  | cons l L ih => simp [List.flatten_cons, nonWS_append, ih]

theorem nonWS_intercalate_newline :
    ∀ ps : List (List Char), nonWS (List.intercalate ['\n'] ps) = (ps.map nonWS).flatten
  | [] => rfl
  | [p] => by simp [List.intercalate]
  | p :: q :: ps => by
    have ih := nonWS_intercalate_newline (q :: ps)
    simp only [List.intercalate, List.intersperse_cons_cons, List.flatten_cons] at ih ⊢
    simp [nonWS_append, nonWS_newline_cons, ih]

/-- Invariant of the paragraph-accumulation loop: the non-whitespace content of
the flushed chunks plus the live buffer equals the content already flushed,
plus the buffer, plus the content of the remaining paragraphs. -/
theorem chunkStep_foldl_invariant (max_chars : Nat) :
    ∀ (ps : List (List Char)) (chunks : List (List Char)) (current : List Char),
      (((ps.foldl (chunkStep max_chars) (chunks, current)).1.map nonWS).flatten
        ++ nonWS (ps.foldl (chunkStep max_chars) (chunks, current)).2)
      = ((chunks.map nonWS).flatten ++ nonWS current) ++ (ps.map nonWS).flatten
  | [], chunks, current => by simp
  | p :: ps, chunks, current => by
    rw [List.foldl_cons]
    by_cases h : current.length + p.length > max_chars
    · rw [show chunkStep max_chars (chunks, current) p = (chunks ++ [trim current], p) from
        by simp [chunkStep, h]]
      rw [chunkStep_foldl_invariant max_chars ps]
      simp [nonWS_trim, List.append_assoc]
    · rw [show chunkStep max_chars (chunks, current) p = (chunks, current ++ '\n' :: p) from
        by simp [chunkStep, h]]
      rw [chunkStep_foldl_invariant max_chars ps]
      simp [nonWS_append, nonWS_newline_cons, List.append_assoc]

/-- Dropping the chunks that are empty after stripping loses no
non-whitespace content. -/
theorem nonWS_flatten_filter_trim (l : List (List Char)) :
    ((l.filter (fun c => !(trim c).isEmpty)).map nonWS).flatten = (l.map nonWS).flatten := by
  induction l with
  | nil => rfl
  | cons c t ih =>
    by_cases h : (trim c).isEmpty
    · have hc : nonWS c = [] :=
        nonWS_eq_nil_of_trim_eq_nil (List.isEmpty_iff.mp h)
      simp [List.filter_cons, h, hc, ih]
    · simp [List.filter_cons, h, ih]

/-- Claim C6: for every input text and every `max_chars`, the concatenation of
the chunks returned by `split_text_into_chunks`, read modulo whitespace,
is exactly the input text modulo whitespace: no non-whitespace code point is
lost, duplicated or reordered. -/
theorem split_text_into_chunks_preserves_content (text : List Char) (max_chars : Nat) :
    nonWS (split_text_into_chunks text max_chars).flatten = nonWS text := by
  have hgoal : ((text.splitOn '\n').map nonWS).flatten = nonWS text := by
    rw [← nonWS_intercalate_newline, List.intercalate_splitOn]
  have hinv := chunkStep_foldl_invariant max_chars (text.splitOn '\n') [] []
  simp only [List.map_nil, List.flatten_nil, List.nil_append,
    show nonWS [] = [] from rfl] at hinv
  unfold split_text_into_chunks
  rw [nonWS_flatten, nonWS_flatten_filter_trim]
  by_cases h : ((text.splitOn '\n').foldl (chunkStep max_chars) ([], [])).2.isEmpty
  · rw [if_pos h]
    rw [List.isEmpty_iff.mp h] at hinv
    simp only [show nonWS [] = [] from rfl, List.append_nil] at hinv
    rw [hinv, hgoal]
  · rw [if_neg h]
    rw [List.map_append, List.flatten_append]
    simp only [List.map_cons, List.map_nil, List.flatten_cons, List.flatten_nil,
      List.append_nil, nonWS_trim]
    rw [hinv, hgoal]

/-- Claim C7: every chunk returned by `split_text_into_chunks` is non-empty
after trimming, and the empty input yields no chunks at all. -/
theorem split_text_into_chunks_chunks_nonempty (text : List Char) (max_chars : Nat) :
    (∀ c ∈ split_text_into_chunks text max_chars, trim c ≠ []) ∧
      split_text_into_chunks [] max_chars = [] := by
  constructor
  · intro c hc
    have := List.of_mem_filter hc
    simpa [List.isEmpty_iff] using this
  · simp [split_text_into_chunks, List.splitOn, List.splitOnP, List.splitOnP.go,
      chunkStep, trim]

/-- Witness for C7 at a concrete input. -/
theorem split_text_into_chunks_chunks_nonempty_witness :
    trim ("aaaaa".data) ≠ [] ∧ split_text_into_chunks [] 7 = [] :=
  ⟨(split_text_into_chunks_chunks_nonempty ("aaaaa\nbbbbb\nccccc".data) 10).1
      ("aaaaa".data) (by decide),
    (split_text_into_chunks_chunks_nonempty [] 7).2⟩

/-! ## Conversation formatter (`lecture-rag-backend/app/main.py`, `format_history`) -/

/-- One message of the conversation (`HistoryItem`, main.py lines 29–31).
The pydantic model accepts any string as `role`. -/
structure HistoryItem where
  role : String
  text : String
deriving DecidableEq

/-- `format_history(history)` (main.py lines 157–165): empty history maps to
the sentinel; otherwise one line `"<ROLE>: <text>"` is accumulated per turn
(`role = "USER" if msg.role == "user" else "ASSISTANT"`) and the lines are
joined with `"\n"`. -/
def format_history (history : List HistoryItem) : String :=
  if history.isEmpty then "(no prior conversation)"
  else
    let lines := history.foldl
      (fun acc msg =>
        acc ++ [(if msg.role = "user" then "USER" else "ASSISTANT") ++ ": " ++ msg.text])
      ([] : List String)
    String.intercalate "\n" lines

/-- The rendered line for a single turn. -/
def history_line (msg : HistoryItem) : String :=
  (if msg.role = "user" then "USER" else "ASSISTANT") ++ ": " ++ msg.text

theorem format_history_foldl_eq_map (history : List HistoryItem) :
    ∀ acc : List String,
      history.foldl (fun acc msg => acc ++ [history_line msg]) acc
        = acc ++ history.map history_line := by
  induction history with
  | nil => simp
  | cons msg rest ih => intro acc; simp [ih]

/-- Claim C8: `format_history` maps the empty history to exactly
`"(no prior conversation)"`, maps `[{role:"user", text:"Hi"},
{role:"assistant", text:"Hello"}]` to exactly `"USER: Hi\nASSISTANT: Hello"`,
and in general renders one `"<ROLE>: <text>"` line per turn, joined with
`"\n"` in the input order of the turns. -/
theorem format_history_spec (history : List HistoryItem) :
    format_history [] = "(no prior conversation)" ∧
    format_history [⟨"user", "Hi"⟩, ⟨"assistant", "Hello"⟩] = "USER: Hi\nASSISTANT: Hello" ∧
    (history ≠ [] →
      format_history history = String.intercalate "\n" (history.map history_line)) := by
  refine ⟨rfl, by decide, fun h => ?_⟩
  unfold format_history
  rw [if_neg (by simpa [List.isEmpty_iff] using h)]
  have := format_history_foldl_eq_map history []
  simp only [history_line] at this
  rw [this]
  simp

/-- Witness for C8 at a concrete non-empty history. -/
theorem format_history_spec_witness :
    format_history [⟨"user", "Hi"⟩, ⟨"assistant", "Hello"⟩]
      = String.intercalate "\n"
          ([⟨"user", "Hi"⟩, (⟨"assistant", "Hello"⟩ : HistoryItem)].map history_line) :=
  (format_history_spec [⟨"user", "Hi"⟩, ⟨"assistant", "Hello"⟩]).2.2 (by decide)

/-- Claim C10: for a single turn, `format_history` uses the `"USER"` label
exactly when the role is the lowercase string `"user"`; any other role string
(including `"User"`, `"USER"`, `"system"`) gets the `"ASSISTANT"` label, and
no role value is rejected (the function is total in the role). -/
theorem format_history_role_label (r t : String) :
    format_history [⟨r, t⟩] = (if r = "user" then "USER" else "ASSISTANT") ++ ": " ++ t ∧
    (r ≠ "user" → format_history [⟨r, t⟩] = "ASSISTANT: " ++ t) ∧
    format_history [⟨"User", t⟩] = "ASSISTANT: " ++ t ∧
    format_history [⟨"USER", t⟩] = "ASSISTANT: " ++ t ∧
    format_history [⟨"system", t⟩] = "ASSISTANT: " ++ t := by
  have hone : ∀ s u : String,
      format_history [⟨s, u⟩] = (if s = "user" then "USER" else "ASSISTANT") ++ ": " ++ u := by
    intro s u
    unfold format_history
    simp [String.intercalate]
    rfl
  refine ⟨hone r t, fun h => ?_, ?_, ?_, ?_⟩
  · rw [hone r t, if_neg h]; rfl
  · rw [hone "User" t, if_neg (by decide)]; rfl
  · rw [hone "USER" t, if_neg (by decide)]; rfl
  · rw [hone "system" t, if_neg (by decide)]; rfl

/-- Witness for C10 at a concrete non-`"user"` role. -/
theorem format_history_role_label_witness :
    format_history [⟨"Assistant", "ok"⟩] = "ASSISTANT: ok" :=
  (format_history_role_label "Assistant" "ok").2.1 (by decide)

/-! ## Retriever and generator (`lecture-rag-backend/app/main.py`) -/

/-- One `restricts` entry of a returned neighbour (`r.name`,
`r.allow_tokens`); `getattr(r, "allow_tokens", []) or []` is modelled by the
token list itself. -/
structure Restrict where
  name : String
  allow_tokens : List String
deriving DecidableEq

/-- One nearest-neighbour match, carrying its `restricts` payload. -/
structure Neighbor where
  restricts : List Restrict
deriving DecidableEq

/-- The pure extraction half of `vertex_ai_vector_search_texts`
(main.py lines 134–146): given the `find_neighbors` result of the collaborator
(one inner list per query vector), walk `neighbors[0]` and collect the
`allow_tokens` of every restrict named `"text"`, in order.  An empty result
list yields `[]`. -/
def vertex_ai_vector_search_texts (neighbors : List (List Neighbor)) : List String :=
  if neighbors.isEmpty then []
  else
    (neighbors.headD []).foldl
      (fun acc n =>
        n.restricts.foldl
          (fun acc2 r => if r.name = "text" then acc2 ++ r.allow_tokens else acc2)
          acc)
      []

/-- `vector_search(query)` (main.py lines 148–153).  The embedding call and
the `find_neighbors` call are the two collaborator steps that can raise; their
combined outcome is the `Except` argument (`.error` models the
`RuntimeError` raised at lines 87/90/132).  On success, an empty snippet list
becomes the sentinel context, otherwise the snippets are joined with
`"\n"`. -/
def vector_search (searchOutcome : Except String (List (List Neighbor))) :
    Except String String :=
  match searchOutcome with
  | .error e => .error ("Vector search failed via SDK: " ++ e)
  | .ok neighbors =>
    let matched_contexts := vertex_ai_vector_search_texts neighbors
    if matched_contexts.isEmpty then
      .ok "No relevant context found via Vertex AI Vector Search."
    else
      .ok (String.intercalate "\n" matched_contexts)

/-- The fixed system instruction of `construct_gemini_payload`
(main.py lines 171–180). -/
def rag_system_instruction : String :=
  "You are a concise and helpful lecture assistant. " ++
  "Answer the student\x27s question using the provided lecture context. " ++
  "Keep your answer short and clear—no more than 4 sentences. " ++
  "Use the conversation history only when it is clearly relevant to the current question. " ++
  "If the student asks for clarification (like \x27I don\x27t understand this\x27), " ++
  "explain the same concept in simpler terms rather than giving a long summary. " ++
  "If the question is not related to the lecture, say: " ++
  "\x27I\x27m sorry, I don\x27t have information about that topic in the lecture materials.\x27"

/-- The request handed to the generation call: `payload["contents"]` and
`payload["system_instruction"]` (main.py lines 191–194). -/
structure GeminiPayload where
  contents : String
  system_instruction : String
deriving DecidableEq

/-- `construct_gemini_payload(query, context, history)` (main.py lines
170–196; the code after the first `return` at line 196 is unreachable). -/
def construct_gemini_payload (query : String) (context : String)
    (history : List HistoryItem) : GeminiPayload :=
  { contents :=
      "Conversation so far:\n" ++ format_history history ++ "\n\n" ++
      "Lecture Context:\n" ++ context ++ "\n\n" ++
      "Current User Question:\n" ++ query ++ "\n"
    system_instruction := rag_system_instruction }

/-- `get_gemini_response_full(payload)` (main.py lines 217–248; everything
after the `return text` at line 248 is unreachable).  The argument is the
outcome of the `generate_content` call: `.error e` models any exception from
the call (connectivity failure, timeout, ...), `.ok mtext` models a response
whose `.text` attribute is `mtext` (`none` when absent; `if not text` also
treats the empty string as missing). -/
def get_gemini_response_full (callOutcome : Except String (Option String)) : String :=
  match callOutcome with
  | .error e => "Error calling Gemini via Vertex AI: " ++ e
  | .ok mtext =>
    match mtext with
    | none => "Error: Could not parse text from Gemini response."
    | some t => if t.isEmpty then "Error: Could not parse text from Gemini response." else t

/-- The context string computed by the `try`/`except` at the top of the
`query` endpoint (main.py lines 296–300): a failed retrieval degrades to the
sentinel. -/
def query_context (searchOutcome : Except String (List (List Neighbor))) : String :=
  match vector_search searchOutcome with
  | .ok c => c
  | .error _ => "No relevant context found via Vertex AI Vector Search."

/-- The `POST /api/v1/query` handler (main.py lines 294–304), parameterised by
the retrieval outcome and by the generation collaborator `gen` (a function of
the payload, so the theorem can observe which payload generation is invoked
on).  The handler always returns a `QueryResponse` value — HTTP 200. -/
def query (searchOutcome : Except String (List (List Neighbor)))
    (gen : GeminiPayload → Except String (Option String))
    (prompt : String) (history : List HistoryItem) : String :=
  let context := query_context searchOutcome
  let payload := construct_gemini_payload prompt context history
  get_gemini_response_full (gen payload)

theorem restrict_foldl_no_text (ms : List Neighbor)
    (h : ∀ n ∈ ms, ∀ r ∈ n.restricts, r.name ≠ "text") :
    ∀ acc : List String,
      ms.foldl
        (fun acc n =>
          n.restricts.foldl
            (fun acc2 r => if r.name = "text" then acc2 ++ r.allow_tokens else acc2)
            acc)
        acc = acc := by
  induction ms with
  | nil => intro acc; rfl
  | cons n rest ih =>
    intro acc
    rw [List.foldl_cons]
    have hinner : ∀ (rs : List Restrict), (∀ r ∈ rs, r.name ≠ "text") →
        rs.foldl (fun acc2 r => if r.name = "text" then acc2 ++ r.allow_tokens else acc2) acc
          = acc := by
      intro rs hrs
      induction rs with
      | nil => rfl
      | cons r rs ihr =>
        rw [List.foldl_cons, if_neg (hrs r (List.mem_cons_self ..))]
        exact ihr fun r' hr' => hrs r' (List.mem_cons_of_mem _ hr')
    rw [hinner n.restricts (h n (List.mem_cons_self ..))]
    exact ih (fun n' hn' => h n' (List.mem_cons_of_mem _ hn')) acc

/-- Claim C3: a nearest-neighbour result with zero neighbours, or whose
matches carry no `"text"` restrict, makes the retrieval extraction return the
empty list (no exception); in that case — and likewise when the retrieval
call itself fails — the `query` handler builds the generation payload with the
context string exactly `"No relevant context found via Vertex AI Vector
Search."` and still invokes generation, returning the answer produced by the
generator. -/
theorem query_retrieval_degradation
    (gen : GeminiPayload → Except String (Option String))
    (prompt : String) (history : List HistoryItem)
    (neighbors : List (List Neighbor)) (e : String) :
    vertex_ai_vector_search_texts [] = [] ∧
    ((∀ group ∈ neighbors, ∀ n ∈ group, ∀ r ∈ n.restricts, r.name ≠ "text") →
      vertex_ai_vector_search_texts neighbors = []) ∧
    (vertex_ai_vector_search_texts neighbors = [] →
      query (.ok neighbors) gen prompt history
        = get_gemini_response_full
            (gen (construct_gemini_payload prompt
              "No relevant context found via Vertex AI Vector Search." history))) ∧
    query (.error e) gen prompt history
      = get_gemini_response_full
          (gen (construct_gemini_payload prompt
            "No relevant context found via Vertex AI Vector Search." history)) := by
  refine ⟨rfl, fun h => ?_, fun h => ?_, rfl⟩
  · unfold vertex_ai_vector_search_texts
    by_cases hne : neighbors.isEmpty
    · rw [if_pos hne]
    · rw [if_neg hne]
      cases neighbors with
      | nil => rfl
      | cons g gs =>
        exact restrict_foldl_no_text g
          (fun n hn => h g (List.mem_cons_self ..) n hn) []
  · unfold query query_context vector_search
    simp [h]

/-- Witness for C3: a neighbour whose only restrict is named `"embedding"`
yields no snippets, and a failed retrieval still produces the generated
answer on the sentinel-context payload. -/
theorem query_retrieval_degradation_witness :
    vertex_ai_vector_search_texts [[⟨[⟨"embedding", ["tok"]⟩]⟩]] = [] ∧
    query (.error "boom") (fun _ => .ok (some "ANSWER")) "What is a stack?" [] = "ANSWER" := by
  have h := query_retrieval_degradation (fun _ => .ok (some "ANSWER"))
    "What is a stack?" [] [[⟨[⟨"embedding", ["tok"]⟩]⟩]] "boom"
  refine ⟨h.2.1 (by decide), ?_⟩
  rw [h.2.2.2]
  decide

/-- Claim C4 counterexample: in the executed code path a connectivity failure
or timeout of the generation call is rendered as
`"Error calling Gemini via Vertex AI: ..."`, which does **not** start with
`"Connection Error:"` (the `"Connection Error:"`/`"Error: GEMINI_API_KEY not
configured."` branches sit after an unconditional `return` and are dead
code). -/
theorem get_gemini_response_full_counterexample :
    get_gemini_response_full (.error "Connection timed out")
        = "Error calling Gemini via Vertex AI: Connection timed out" ∧
    ("Error calling Gemini via Vertex AI: Connection timed out").data.take
        ("Connection Error:".data.length) ≠ "Connection Error:".data := by
  exact ⟨rfl, by decide⟩

/-- Claim C4 (amended): the generator invoker never raises to its caller —
every call failure (connectivity failure, timeout, or any other exception) is
normalised to a string answer with the fixed prefix
`"Error calling Gemini via Vertex AI: "`, a response with missing or empty
text yields exactly `"Error: Could not parse text from Gemini response."`
(prefix `"Error:"`), there is no credentials branch in the executed path, and
the `query` endpoint returns the resulting string as the body of its
(status-200) response. -/
theorem get_gemini_response_full_normalization
    (e t : String) (searchOutcome : Except String (List (List Neighbor)))
    (gen : GeminiPayload → Except String (Option String))
    (prompt : String) (history : List HistoryItem) :
    get_gemini_response_full (.error e) = "Error calling Gemini via Vertex AI: " ++ e ∧
    get_gemini_response_full (.ok none) = "Error: Could not parse text from Gemini response." ∧
    get_gemini_response_full (.ok (some "")) =
      "Error: Could not parse text from Gemini response." ∧
    (t ≠ "" → get_gemini_response_full (.ok (some t)) = t) ∧
    query searchOutcome gen prompt history
      = get_gemini_response_full
          (gen (construct_gemini_payload prompt (query_context searchOutcome) history)) := by
  refine ⟨rfl, rfl, rfl, fun h => ?_, rfl⟩
  have ht : t.isEmpty = false := by
    cases hb : t.isEmpty
    · rfl
    · exact absurd ((String.isEmpty_iff t).mp hb) h
  simp [get_gemini_response_full, ht]

/-- Witness for C4 (amended) at a concrete non-empty generated text. -/
theorem get_gemini_response_full_normalization_witness :
    get_gemini_response_full (.ok (some "A stack is a LIFO structure.")) =
      "A stack is a LIFO structure." :=
  (get_gemini_response_full_normalization "x" "A stack is a LIFO structure."
    (.ok []) (fun _ => .ok none) "q" []).2.2.2.1 (by decide)

/-! ## Ingestion records (`lecture_ingest_function/main.py`, `process_lecture`) -/

/-- Specification of the decimal digit string of a natural number (most
significant digit first), used to reason about `Nat.toDigits`, which renders
the `{i}` of the Python f-string `f"{base_id}-chunk-{i}"`. -/
def decDigits (n : Nat) : List Char :=
  if h : n / 10 = 0 then [Nat.digitChar (n % 10)]
  else decDigits (n / 10) ++ [Nat.digitChar (n % 10)]
termination_by n
decreasing_by
  exact Nat.div_lt_self (Nat.pos_of_ne_zero fun h0 => h (by simp [h0])) (by norm_num)

theorem decDigits_eq (n : Nat) :
    decDigits n
      = (if n / 10 = 0 then [] else decDigits (n / 10)) ++ [Nat.digitChar (n % 10)] := by
  rw [decDigits]
  split <;> simp

theorem decDigits_ne_nil (n : Nat) : decDigits n ≠ [] := by
  rw [decDigits_eq]
  simp

theorem digitChar_inj_lt : ∀ a < 10, ∀ b < 10, Nat.digitChar a = Nat.digitChar b → a = b := by
  decide

theorem decDigits_inj (m : Nat) : ∀ n, decDigits m = decDigits n → m = n := by
  induction m using Nat.strong_induction_on with
  | _ m ih =>
    intro n h
    rw [decDigits_eq m, decDigits_eq n] at h
    have h' := congrArg List.reverse h
    simp only [List.reverse_append, List.reverse_cons, List.reverse_nil, List.nil_append,
      List.cons_append, List.cons.injEq] at h'
    obtain ⟨hdigit, hrest⟩ := h'
    have hmod : m % 10 = n % 10 :=
      digitChar_inj_lt (m % 10) (Nat.mod_lt _ (by norm_num)) (n % 10)
        (Nat.mod_lt _ (by norm_num)) hdigit
    have hpre : (if m / 10 = 0 then ([] : List Char) else decDigits (m / 10))
        = (if n / 10 = 0 then ([] : List Char) else decDigits (n / 10)) := by
      have := congrArg List.reverse hrest
      simpa using this
    by_cases hm : m / 10 = 0 <;> by_cases hn : n / 10 = 0
    · omega
    · rw [if_pos hm, if_neg hn] at hpre
      exact absurd hpre.symm (decDigits_ne_nil _)
    · rw [if_neg hm, if_pos hn] at hpre
      exact absurd hpre (decDigits_ne_nil _)
    · rw [if_neg hm, if_neg hn] at hpre
      have hmpos : 0 < m := Nat.pos_of_ne_zero fun h0 => hm (by simp [h0])
      have hdiv : m / 10 = n / 10 :=
        ih (m / 10) (Nat.div_lt_self hmpos (by norm_num)) (n / 10) hpre
      omega

theorem toDigitsCore_eq_decDigits (f : Nat) :
    ∀ (n : Nat) (acc : List Char), n < f →
      Nat.toDigitsCore 10 f n acc = decDigits n ++ acc := by
  induction f with
  | zero => intro n acc h; omega
  | succ f ih =>
    intro n acc h
    by_cases h0 : n / 10 = 0
    · simp [Nat.toDigitsCore, h0, decDigits_eq n]
    · have hpos : 0 < n := Nat.pos_of_ne_zero fun h0' => h0 (by simp [h0'])
      have hlt : n / 10 < f := by
        have := Nat.div_lt_self hpos (show 1 < 10 by norm_num)
        omega
      simp only [Nat.toDigitsCore, h0, if_false, ite_false]
      rw [ih (n / 10) _ hlt, decDigits_eq n, if_neg h0]
      simp

theorem toDigits_eq_decDigits (n : Nat) : Nat.toDigits 10 n = decDigits n := by
  unfold Nat.toDigits
  rw [toDigitsCore_eq_decDigits (n + 1) n [] (Nat.lt_succ_self n), List.append_nil]

theorem toDigits_inj {m n : Nat} (h : Nat.toDigits 10 m = Nat.toDigits 10 n) : m = n := by
  rw [toDigits_eq_decDigits, toDigits_eq_decDigits] at h
  exact decDigits_inj m n h

/-- One `restricts` entry of an ingestion datapoint (`"namespace"` /
`"allow_list"` keys of the dict literal at main.py lines 79–82). -/
structure IngestRestrict where
  nspace : List Char
  allow_list : List (List Char)
deriving DecidableEq

/-- One vector-index record (`datapoint` dict, main.py lines 76–83). -/
structure Datapoint where
  datapoint_id : List Char
  feature_vector : List Int
  restricts : List IngestRestrict
deriving DecidableEq

/-- The record id `f"{base_id}-chunk-{i}"` (main.py line 77); `{i}` renders the
decimal digits of `i`, i.e. `Nat.toDigits 10 i`. -/
def datapoint_id_for (base_id : List Char) (i : Nat) : List Char :=
  base_id ++ ("-chunk-".data) ++ Nat.toDigits 10 i

/-- The record built for chunk `i` (main.py lines 76–83): id, embedding
vector, and the two restricts — `source_file` with the base name of the file and
`text` with the chunk truncated to its first 1000 code points
(`chunk[:1000]`). -/
def mk_datapoint (base_id : List Char) (i : Nat) (chunk : List Char)
    (vec : List Int) : Datapoint :=
  { datapoint_id := datapoint_id_for base_id i
    feature_vector := vec
    restricts := [⟨"source_file".data, [base_id]⟩, ⟨"text".data, [chunk.take 1000]⟩] }

/-- The embedding loop of `process_lecture` (main.py lines 70–87):
`for i, chunk in enumerate(chunks)`, append a record when the embedding call
succeeds, log and skip the chunk when it raises. -/
def build_datapoints (embed : Nat → List Char → Except String (List Int))
    (base_id : List Char) (chunks : List (List Char)) : List Datapoint :=
  chunks.enum.foldl
    (fun dps ic =>
      match embed ic.1 ic.2 with
      | .ok v => dps ++ [mk_datapoint base_id ic.1 ic.2 v]
      | .error _ => dps)
    []

theorem build_datapoints_foldl_aux (embed : Nat → List Char → Except String (List Int))
    (base_id : List Char) :
    ∀ (l : List (Nat × List Char)) (acc : List Datapoint),
      l.foldl
        (fun dps ic =>
          match embed ic.1 ic.2 with
          | .ok v => dps ++ [mk_datapoint base_id ic.1 ic.2 v]
          | .error _ => dps)
        acc
      = acc ++ l.filterMap
          (fun ic =>
            match embed ic.1 ic.2 with
            | .ok v => some (mk_datapoint base_id ic.1 ic.2 v)
            | .error _ => none) := by
  intro l
  induction l with
  | nil => intro acc; simp
  | cons ic l ih =>
    intro acc
    rw [List.foldl_cons, List.filterMap_cons]
    cases h : embed ic.1 ic.2 with
    | error e => simp only [h, ih]
    | ok v => simp only [h, ih, List.append_assoc, List.singleton_append]

theorem build_datapoints_eq_filterMap (embed : Nat → List Char → Except String (List Int))
    (base_id : List Char) (chunks : List (List Char)) :
    build_datapoints embed base_id chunks
      = chunks.enum.filterMap
          (fun ic =>
            match embed ic.1 ic.2 with
            | .ok v => some (mk_datapoint base_id ic.1 ic.2 v)
            | .error _ => none) := by
  unfold build_datapoints
  rw [build_datapoints_foldl_aux, List.nil_append]

theorem datapoint_id_for_inj (base_id : List Char) {i j : Nat}
    (h : datapoint_id_for base_id i = datapoint_id_for base_id j) : i = j := by
  unfold datapoint_id_for at h
  rw [List.append_assoc, List.append_assoc] at h
  have h1 := List.append_cancel_left h
  have h2 := List.append_cancel_left h1
  exact toDigits_inj h2

theorem build_datapoints_ids_sublist (embed : Nat → List Char → Except String (List Int))
    (base_id : List Char) :
    ∀ l : List (Nat × List Char),
      ((l.filterMap
        (fun ic =>
          match embed ic.1 ic.2 with
          | .ok v => some (mk_datapoint base_id ic.1 ic.2 v)
          | .error _ => none)).map (fun dp => dp.datapoint_id)).Sublist
        (l.map (fun ic => datapoint_id_for base_id ic.1)) := by
  intro l
  induction l with
  | nil => simp
  | cons ic l ih =>
    rw [List.filterMap_cons, List.map_cons]
    cases h : embed ic.1 ic.2 with
    | error e => exact ih.cons _
    | ok v => exact ih.cons₂ _

theorem build_datapoints_ids_congr (embed embed' : Nat → List Char → Except String (List Int))
    (base_id : List Char)
    (hok : ∀ i c, (embed i c).isOk = (embed' i c).isOk) :
    ∀ l : List (Nat × List Char),
      ((l.filterMap
        (fun ic =>
          match embed ic.1 ic.2 with
          | .ok v => some (mk_datapoint base_id ic.1 ic.2 v)
          | .error _ => none)).map (fun dp => dp.datapoint_id))
      = ((l.filterMap
        (fun ic =>
          match embed' ic.1 ic.2 with
          | .ok v => some (mk_datapoint base_id ic.1 ic.2 v)
          | .error _ => none)).map (fun dp => dp.datapoint_id)) := by
  intro l
  induction l with
  | nil => rfl
  | cons ic l ih =>
    have hic := hok ic.1 ic.2
    rw [List.filterMap_cons, List.filterMap_cons]
    cases h : embed ic.1 ic.2 with
    | error e =>
      cases h' : embed' ic.1 ic.2 with
      | error e' => simpa using ih
      | ok v' => rw [h, h'] at hic; simp [Except.isOk, Except.toBool] at hic
    | ok v =>
      cases h' : embed' ic.1 ic.2 with
      | error e' => rw [h, h'] at hic; simp [Except.isOk, Except.toBool] at hic
      | ok v' =>
        have hhead : (mk_datapoint base_id ic.1 ic.2 v).datapoint_id
            = (mk_datapoint base_id ic.1 ic.2 v').datapoint_id := rfl
        simpa using And.intro hhead ih

/-- Claim C9: every record built by the ingestion loop for the chunk at
0-based position `i` of source file `base_id` has id exactly
`base_id ++ "-chunk-" ++ decimal(i)` and its `"text"` restrict is the chunk
truncated to its first 1000 code points (hence of length at most 1000); the
ids of one run contain no duplicates, and a re-run over the same chunks whose
embedding calls succeed on the same chunks produces exactly the same ids. -/
theorem build_datapoints_record_ids
    (embed embed' : Nat → List Char → Except String (List Int))
    (base_id : List Char) (chunks : List (List Char)) :
    (∀ dp ∈ build_datapoints embed base_id chunks,
      ∃ i chunk, (i, chunk) ∈ chunks.enum ∧
        embed i chunk = .ok dp.feature_vector ∧
        dp.datapoint_id = base_id ++ ("-chunk-".data) ++ Nat.toDigits 10 i ∧
        dp.restricts
          = [⟨"source_file".data, [base_id]⟩, ⟨"text".data, [chunk.take 1000]⟩] ∧
        (chunk.take 1000).length ≤ 1000) ∧
    ((build_datapoints embed base_id chunks).map (fun dp => dp.datapoint_id)).Nodup ∧
    ((∀ i c, (embed i c).isOk = (embed' i c).isOk) →
      (build_datapoints embed base_id chunks).map (fun dp => dp.datapoint_id)
        = (build_datapoints embed' base_id chunks).map (fun dp => dp.datapoint_id)) := by
  refine ⟨?_, ?_, fun hok => ?_⟩
  · rw [build_datapoints_eq_filterMap]
    intro dp hdp
    rw [List.mem_filterMap] at hdp
    obtain ⟨ic, hic, hmk⟩ := hdp
    cases h : embed ic.1 ic.2 with
    | error e => rw [h] at hmk; exact absurd hmk (by simp)
    | ok v =>
      rw [h] at hmk
      have hdp' := Option.some.inj hmk
      refine ⟨ic.1, ic.2, by rwa [Prod.mk.eta], ?_, ?_, ?_, ?_⟩
      · rw [← hdp', h]; rfl
      · rw [← hdp']; rfl
      · rw [← hdp']; rfl
      · simp [List.length_take]
  · rw [build_datapoints_eq_filterMap]
    refine List.Nodup.sublist (build_datapoints_ids_sublist embed base_id chunks.enum) ?_
    have hmm : chunks.enum.map (fun ic => datapoint_id_for base_id ic.1)
        = (chunks.enum.map Prod.fst).map (datapoint_id_for base_id) := by
      rw [List.map_map]; rfl
    rw [hmm]
    exact List.Nodup.map (fun i j hij => datapoint_id_for_inj base_id hij)
      (List.nodup_enum_map_fst chunks)
  · rw [build_datapoints_eq_filterMap, build_datapoints_eq_filterMap]
    exact build_datapoints_ids_congr embed embed' base_id hok chunks.enum

/-- Witness for C9: two concrete runs over the same two chunks (the second
returning different vectors) produce the same duplicate-free ids, and the
first record of the first run matches the id/text-preview shape. -/
theorem build_datapoints_record_ids_witness :
    (∃ i chunk, (i, chunk) ∈ (["c1".data, "c2".data] : List (List Char)).enum ∧
      (fun (_ : Nat) (_ : List Char) => (.ok [1] : Except String (List Int))) i chunk
        = .ok (mk_datapoint ("l.pdf".data) 0 ("c1".data) [1]).feature_vector ∧
      (mk_datapoint ("l.pdf".data) 0 ("c1".data) [1]).datapoint_id
        = "l.pdf".data ++ ("-chunk-".data) ++ Nat.toDigits 10 i ∧
      (mk_datapoint ("l.pdf".data) 0 ("c1".data) [1]).restricts
        = [⟨"source_file".data, ["l.pdf".data]⟩, ⟨"text".data, [chunk.take 1000]⟩] ∧
      (chunk.take 1000).length ≤ 1000) ∧
    (build_datapoints (fun _ _ => .ok [1]) ("l.pdf".data) ["c1".data, "c2".data]).map
        (fun dp => dp.datapoint_id)
      = (build_datapoints (fun _ _ => .ok [2]) ("l.pdf".data) ["c1".data, "c2".data]).map
        (fun dp => dp.datapoint_id) := by
  have h := build_datapoints_record_ids (fun _ _ => .ok [1]) (fun _ _ => .ok [2])
    ("l.pdf".data) ["c1".data, "c2".data]
  refine ⟨h.1 (mk_datapoint ("l.pdf".data) 0 ("c1".data) [1]) (by decide),
    h.2.2 (fun i c => rfl)⟩

/-! ### Batch upsert and the ingestion run -/

/-- The slicing `datapoints[i : i + batch_size]` for `i in
range(0, len(datapoints), batch_size)` with `batch_size = 100`
(main.py lines 100–102): the loop starts are `0, 100, 200, ...` —
`⌈len/100⌉` of them — and each batch is `datapoints[i : i + 100]`. -/
def ingest_batches (datapoints : List Datapoint) : List (List Datapoint) :=
  (List.range' 0 ((datapoints.length + 99) / 100) 100).map
    (fun i => (datapoints.drop i).take 100)

/-- The `try`-wrapped upsert loop of `process_lecture` (main.py lines
96–108).  The whole loop body sits inside one `try`, so the first batch whose
`upsert_datapoints` call raises aborts the loop; the `except` arm prints
`f"Upsert failed: {e}"` — a message that does not carry the batch index.
Returns `(succeeded batches, attempted batches, error message)`; previously
succeeded batches stay recorded (nothing is rolled back). -/
def run_upserts (upsert : List Datapoint → Except String Unit) :
    List (List Datapoint) → List (List Datapoint) × List (List Datapoint) × Option String
  | [] => ([], [], none)
  | b :: rest =>
    match upsert b with
    | .ok _ =>
      let r := run_upserts upsert rest
      (b :: r.1, b :: r.2.1, r.2.2)
    | .error e => ([], [b], some ("Upsert failed: " ++ e))

/-- The only piece of local filesystem state `process_lecture` touches: the
downloaded temp copy of the document. -/
structure FsState where
  tempExists : Bool
deriving DecidableEq

/-- `os.remove(local_path)` (main.py lines 59, 93, 111). -/
def os_remove (s : FsState) : FsState := { s with tempExists := false }

/-- The observable outcome of one ingestion run. -/
structure IngestResult where
  fs : FsState
  upserted : List (List Datapoint)
  attempted : List (List Datapoint)
  upsertError : Option String
  completed : Bool
deriving DecidableEq

/-- The post-download portion of `process_lecture` (main.py lines 53–116),
parameterised by the collaborator outcomes the code guards with `try`:
`extract` is the pdfplumber text extraction (lines 54–60), `embed` the
per-chunk embedding call (lines 73–86), `upsert` the per-batch
`upsert_datapoints` call (lines 96–108).  `fs0` is the filesystem state right
after the download (temp file present).  Exit paths: extraction failure
(remove + return), empty datapoint set (remove + return), and the upsert
`try/except/finally` (the `finally` removes the temp file; the trailing
`"Processing complete."` is reached whether or not the upsert failed). -/
def process_lecture (extract : Except String (List Char))
    (embed : Nat → List Char → Except String (List Int))
    (upsert : List Datapoint → Except String Unit)
    (base_id : List Char) (fs0 : FsState) : IngestResult :=
  match extract with
  | .error _ =>
    { fs := os_remove fs0, upserted := [], attempted := [], upsertError := none
      completed := false }
  | .ok text =>
    let chunks := split_text_into_chunks text 1500
    let datapoints := build_datapoints embed base_id chunks
    if datapoints.isEmpty then
      { fs := os_remove fs0, upserted := [], attempted := [], upsertError := none
        completed := false }
    else
      let r := run_upserts upsert (ingest_batches datapoints)
      { fs := os_remove fs0, upserted := r.1, attempted := r.2.1, upsertError := r.2.2
        completed := true }

/-- Claim C5: whatever the collaborator outcomes — extraction failure, empty
record set, upsert failure or full success — every exit path of the
post-download ingestion run removes the temporary local copy. -/
theorem process_lecture_removes_temp_file (extract : Except String (List Char))
    (embed : Nat → List Char → Except String (List Int))
    (upsert : List Datapoint → Except String Unit)
    (base_id : List Char) (fs0 : FsState) :
    (process_lecture extract embed upsert base_id fs0).fs.tempExists = false := by
  cases extract with
  | error e => rfl
  | ok text =>
    unfold process_lecture
    by_cases h : (build_datapoints embed base_id (split_text_into_chunks text 1500)).isEmpty <;>
      simp [h, os_remove]

/-- Claim C2 (amended): when the upsert of one batch fails, the loop aborts —
the batches before it succeeded and stay recorded (no rollback), the failing
batch is the last one attempted, the remaining batches are **not** attempted,
and the recorded failure message is `"Upsert failed: " ++ e`, which carries no
batch index; the run itself still terminates normally (best-effort). -/
theorem run_upserts_first_failure (upsert : List Datapoint → Except String Unit)
    (good : List (List Datapoint)) (b : List Datapoint)
    (rest : List (List Datapoint)) (e : String)
    (hgood : ∀ g ∈ good, upsert g = .ok ()) (hb : upsert b = .error e) :
    run_upserts upsert (good ++ b :: rest)
      = (good, good ++ [b], some ("Upsert failed: " ++ e)) := by
  induction good with
  | nil => simp [run_upserts, hb]
  | cons g gs ih =>
    have hg : upsert g = .ok () := hgood g (List.mem_cons_self ..)
    have ih' := ih fun g' hg' => hgood g' (List.mem_cons_of_mem _ hg')
    simp [run_upserts, hg, ih']

/-- Witness for C2 (amended): one good batch, then a failing batch, then one
batch that is never attempted. -/
theorem run_upserts_first_failure_witness :
    run_upserts
      (fun b => if b.isEmpty then .error "down" else .ok ())
      [[⟨"x".data, [], []⟩], [], [⟨"x".data, [], []⟩]]
      = ([[⟨"x".data, [], []⟩]], [[⟨"x".data, [], []⟩], []], some "Upsert failed: down") :=
  run_upserts_first_failure
    (fun b => if b.isEmpty then .error "down" else .ok ())
    [[⟨"x".data, [], []⟩]] [] [[⟨"x".data, [], []⟩]] "down"
    (by intro g hg; rw [List.mem_singleton] at hg; subst hg; rfl) rfl

/-- A list of 250 datapoints: three batches of 100, 100 and 50 under batch size 100. -/
def c2_datapoints : List Datapoint :=
  (List.range 250).map
    (fun n => { datapoint_id := Nat.toDigits 10 n, feature_vector := [], restricts := [] })

/-- An upsert collaborator that raises exactly on the batch containing the
datapoint with id `"100"` — the second batch of `c2_datapoints`. -/
def c2_upsert (b : List Datapoint) : Except String Unit :=
  if (Nat.toDigits 10 100) ∈ b.map (fun dp => dp.datapoint_id) then .error "boom" else .ok ()

set_option maxRecDepth 100000 in
/-- Claim C2 counterexample: with three batches and the second failing, only
two batches are ever attempted — the third is skipped, contradicting
"every remaining batch is still attempted" — and the recorded message
`"Upsert failed: boom"` does not name the failing batch's index. -/
theorem run_upserts_counterexample :
    (ingest_batches c2_datapoints).length = 3 ∧
    (run_upserts c2_upsert (ingest_batches c2_datapoints)).2.1.length = 2 ∧
    (run_upserts c2_upsert (ingest_batches c2_datapoints)).2.2 = some "Upsert failed: boom" := by
  decide
